import Mathlib

/-!
Shallow embedding of the Cat-and-Old-Dog runner game (src/script.js).

The source file concatenates two near-duplicate variants of the game.  The
second variant is the canonical one (it carries the constants the design
describes: jumpForce 22, weight 0.8, speed cap 15, shrunken hitboxes,
fast-fall), so the definitions below follow the second variant line by line;
places where the first variant differs are noted in comments.

JavaScript numbers are modelled as rationals (ℚ); `Math.random()` draws are
passed in as explicit parameters in `[0,1)`; the DOM, canvas and WebAudio
calls are side effects outside the game state and are dropped, except that
the number of `gameOver` invocations (each of which emits one death audio
cue) is returned by the obstacle pass so that cue multiplicity can be
reasoned about.
-/

namespace CatDog

/-- Player x position, fixed at construction (`this.x = 80`). -/
def playerX : ℚ := 80

/-- Player width (`this.width = 40`). -/
def playerWidth : ℚ := 40

/-- Player height (`this.height = 40`). -/
def playerHeight : ℚ := 40

/-- Jump impulse magnitude (`this.jumpForce = 22`). -/
def jumpForce : ℚ := 22

/-- Gravity per tick (`this.weight = 0.8`). -/
def weight : ℚ := 8 / 10

/-- Obstacle width (`this.width = 40`). -/
def obstacleWidth : ℚ := 40

/-- Obstacle height (`this.height = 40`). -/
def obstacleHeight : ℚ := 40

/-- Initial game speed set by `startGame` (`this.gameSpeed = 6`). -/
def startSpeed : ℚ := 6

/-- Speed cap (`if (this.gameSpeed < 15)`). -/
def speedCap : ℚ := 15

/-- Per-frame speed increment (`this.gameSpeed += 0.001`). -/
def speedInc : ℚ := 1 / 1000

/-- Per-frame score increment (`this.score += 0.15`). -/
def scoreInc : ℚ := 3 / 20

/-- Polled input snapshot: whether the jump keys (Space / ArrowUp) and the
fast-fall key (ArrowDown) are currently held. -/
structure Input where
  jump : Bool
  fastFall : Bool
  deriving DecidableEq

/-- Player state: vertical position `y` and vertical velocity `vy`
(x, width, height are fixed constants of the constructor). -/
structure Player where
  y : ℚ
  vy : ℚ
  deriving DecidableEq

/-- `onGround()`: `this.y >= this.game.groundLevel - this.height`. -/
def Player.onGround (gl : ℚ) (p : Player) : Bool :=
  decide (gl - playerHeight ≤ p.y)

/-- `Player.reset()`: snap to the ground line, zero the velocity. -/
def Player.reset (gl : ℚ) : Player :=
  ⟨gl - playerHeight, 0⟩

/-- Jump stage of `Player.update`: if a jump key is held and the player is
on the ground, set `vy = -jumpForce` (an instantaneous assignment). -/
def applyJump (gl : ℚ) (inp : Input) (p : Player) : Player :=
  if inp.jump && p.onGround gl then { p with vy := -jumpForce } else p

/-- Integration stage of `Player.update`: `this.y += this.vy`. -/
def integrate (p : Player) : Player :=
  { p with y := p.y + p.vy }

/-- Gravity / ground stage of `Player.update`: if airborne add gravity,
otherwise zero the velocity and snap `y` to the ground line. -/
def applyGravity (gl : ℚ) (p : Player) : Player :=
  if !p.onGround gl then { p with vy := p.vy + weight }
  else ⟨gl - playerHeight, 0⟩

/-- Fast-fall stage of `Player.update`: if ArrowDown is held and the player
is airborne, `this.vy += 2`. -/
def applyFastFall (gl : ℚ) (inp : Input) (p : Player) : Player :=
  if inp.fastFall && !p.onGround gl then { p with vy := p.vy + 2 } else p

/-- `Player.update(input, deltaTime)`, the four stages in source order.
The `deltaTime` argument is accepted (mirroring the JS signature) but,
exactly as in the source, never used: the physics is fixed-per-tick. -/
def Player.update (gl : ℚ) (inp : Input) (deltaTime : ℚ) (p : Player) : Player :=
  applyFastFall gl inp (applyGravity gl (integrate (applyJump gl inp p)))

/-- Obstacle state: x position, y position (set to `groundLevel - height`
at spawn), and the `markedForDeletion` flag.  The emoji kind is purely
visual and is not modelled. -/
structure Obstacle where
  x : ℚ
  y : ℚ
  marked : Bool
  deriving DecidableEq

/-- Obstacle constructor: spawns at `x = game.width`, on the ground line. -/
def Obstacle.spawn (width gl : ℚ) : Obstacle :=
  ⟨width, gl - obstacleHeight, false⟩

/-- `Obstacle.update()`: `this.x -= this.game.gameSpeed`; mark for deletion
once `this.x < -this.width`. -/
def Obstacle.update (speed : ℚ) (o : Obstacle) : Obstacle :=
  let x := o.x - speed
  ⟨x, o.y, o.marked || decide (x < -obstacleWidth)⟩

/-- `Game.checkCollision(player, obstacle)` (second variant): shrink both
boxes by the fixed fairness margins, then the four-inequality AABB test. -/
def checkCollision (p : Player) (o : Obstacle) : Bool :=
  let hitboxX := playerX + 10
  let hitboxY := p.y + 10
  let hitboxW := playerWidth - 20
  let hitboxH := playerHeight - 15
  let obsHitboxX := o.x + 5
  let obsHitboxY := o.y + 5
  let obsHitboxW := obstacleWidth - 10
  let obsHitboxH := obstacleHeight - 10
  decide (hitboxX < obsHitboxX + obsHitboxW) &&
    decide (hitboxX + hitboxW > obsHitboxX) &&
    decide (hitboxY < obsHitboxY + obsHitboxH) &&
    decide (hitboxY + hitboxH > obsHitboxY)

/-- An axis-aligned box, for restating the collision test the way the
design describes it. -/
structure Rect where
  x : ℚ
  y : ℚ
  w : ℚ
  h : ℚ
  deriving DecidableEq

/-- Standard four-inequality axis-aligned rectangle overlap test, as the
design words it: overlap iff each box's near edge is before the other's
far edge on both axes. -/
def rectOverlap (a b : Rect) : Bool :=
  decide (a.x < b.x + b.w) && decide (a.x + a.w > b.x) &&
    decide (a.y < b.y + b.h) && decide (a.y + a.h > b.y)

/-- The player bounding box shrunk by the design's margins: 10px inset on
each horizontal side, 10px/15px vertically. -/
def playerHitbox (p : Player) : Rect :=
  ⟨playerX + 10, p.y + 10, playerWidth - 20, playerHeight - 15⟩

/-- The obstacle bounding box shrunk by the design's margins: 5px offset,
10px size reduction on each axis. -/
def obstacleHitbox (o : Obstacle) : Rect :=
  ⟨o.x + 5, o.y + 5, obstacleWidth - 10, obstacleHeight - 10⟩

/-- Spawn decision of `Game.update` (second variant):
`obstacles.length === 0 || last.x < width - (300 + Math.random() * 500)`.
The `Math.random()` draw is the parameter `r ∈ [0,1)`. -/
def spawnCheck (width r : ℚ) (obs : List Obstacle) : Bool :=
  match obs.getLast? with
  | none => true
  | some o => decide (o.x < width - (300 + r * 500))

/-- The spawn-gap lower bound the design claims: `minGap = 600 + speed*10`. -/
def specMinGap (speed : ℚ) : ℚ := 600 + speed * 10

/-- The obstacle `forEach` pass of `Game.update`, with JS array semantics:
index `i` walks forward; each visited obstacle is updated in place, spliced
out of the array at the current index if marked, and then collision-checked
(the check uses the captured object even when it was just removed, and a
detected collision calls `gameOver` without breaking the loop).  Removing
the element at the current index shifts the rest left, so the element that
followed a removed one is skipped for this frame.  Returns the resulting
array together with the number of `gameOver` invocations. -/
def obstaclesPass (p : Player) (speed : ℚ) (obs : List Obstacle) (i : ℕ)
    (deaths : ℕ) : List Obstacle × ℕ :=
  if h : i < obs.length then
    if (Obstacle.update speed (obs.get ⟨i, h⟩)).marked then
      obstaclesPass p speed (obs.eraseIdx i) (i + 1)
        (deaths + if checkCollision p (Obstacle.update speed (obs.get ⟨i, h⟩)) then 1 else 0)
    else
      obstaclesPass p speed (obs.set i (Obstacle.update speed (obs.get ⟨i, h⟩))) (i + 1)
        (deaths + if checkCollision p (Obstacle.update speed (obs.get ⟨i, h⟩)) then 1 else 0)
  else
    (obs, deaths)
  termination_by obs.length - i
  decreasing_by
    · simp [List.length_eraseIdx, h]; omega
    · simp [List.length_set]; omega

/-- Ambient cloud: x, y, size, own speed (second variant sets speed 0.2). -/
structure Cloud where
  x : ℚ
  y : ℚ
  size : ℚ
  speed : ℚ
  deriving DecidableEq

/-- Ambient tree: x, y, size (the emoji kind is visual only). -/
structure Tree where
  x : ℚ
  y : ℚ
  size : ℚ
  deriving DecidableEq

/-- `Background.update()` (second variant): probabilistic cloud and tree
spawns, advance, and retire-on-exit.  The five `Math.random()` draws are
the parameters `rc rcy rcs rt rts ∈ [0,1)`. -/
def backgroundStep (width height gl speed rc rcy rcs rt rts : ℚ)
    (clouds : List Cloud) (trees : List Tree) : List Cloud × List Tree :=
  let clouds := if rc < 5 / 1000 then
    clouds ++ [⟨width, rcy * (height / 3), 30 + rcs * 40, 2 / 10⟩] else clouds
  let trees := if rt < 15 / 1000 then
    trees ++ [⟨width, gl - 15, 20 + rts * 10⟩] else trees
  let clouds := clouds.map fun c => { c with x := c.x - c.speed }
  let trees := trees.map fun t => { t with x := t.x - speed }
  (clouds.filter fun c => decide (-100 < c.x),
   trees.filter fun t => decide (-100 < t.x))

/-- Score step of `Game.update`: `this.score += 0.15`. -/
def scoreStep (s : ℚ) : ℚ := s + scoreInc

/-- Milestone-cue condition of `Game.update`, applied to the score `s`
held before the increment:
`Math.floor(s) % 100 !== 0 && Math.floor(s + 0.15) % 100 === 0`. -/
def milestoneCue (s : ℚ) : Bool :=
  decide (⌊s⌋ % 100 ≠ 0) && decide (⌊scoreStep s⌋ % 100 = 0)

/-- Speed step of `Game.update` (second variant):
`if (this.gameSpeed < 15) this.gameSpeed += 0.001`. -/
def speedStep (s : ℚ) : ℚ :=
  if s < speedCap then s + speedInc else s

/-- The score over the frames of one session, starting from `startGame`'s
`score = 0` and stepping by `scoreStep` each playing frame. -/
def scoreSeq : ℕ → ℚ
  | 0 => 0
  | n + 1 => scoreStep (scoreSeq n)

/-- The game speed over the frames of one session, starting from
`startGame`'s `gameSpeed = 6` and stepping by `speedStep` each frame. -/
def speedSeq : ℕ → ℚ
  | 0 => startSpeed
  | n + 1 => speedStep (speedSeq n)

/-- The floored score (`Math.floor(this.score)`) at frame `n`. -/
def flooredScore (n : ℕ) : ℤ := ⌊scoreSeq n⌋

/-- Whole game state (fields of the `Game` object that gameplay reads or
writes; canvas/DOM handles are external). -/
structure Game where
  width : ℚ
  height : ℚ
  groundLevel : ℚ
  score : ℚ
  gameSpeed : ℚ
  isPlaying : Bool
  isGameOver : Bool
  player : Player
  obstacles : List Obstacle
  clouds : List Cloud
  trees : List Tree
  lastTime : ℚ
  deriving DecidableEq

/-- Per-frame inputs of `Game.update`: the polled key state, the elapsed
time, and the `Math.random()` draws consumed this frame. -/
structure Frame where
  input : Input
  dt : ℚ
  rSpawn : ℚ
  rCloud : ℚ
  rCloudY : ℚ
  rCloudSize : ℚ
  rTree : ℚ
  rTreeSize : ℚ
  deriving DecidableEq

/-- `Game.startGame()` (second variant).  Note what it touches: score,
speed, obstacles, lastTime, player, the two phase flags — and what it does
not: the background's cloud and tree lists survive a restart. -/
def Game.startGame (g : Game) : Game :=
  { g with
    isPlaying := true
    isGameOver := false
    score := 0
    gameSpeed := startSpeed
    obstacles := []
    lastTime := 0
    player := Player.reset g.groundLevel }

/-- `Game.update(deltaTime)` (second variant): early-return unless playing;
background, player, spawn decision, obstacle pass (with embedded collision
checks; any detected collision runs `gameOver`, flipping the phase flags),
then score accumulation with the milestone cue, score display, and the
capped speed increment. -/
def Game.update (fr : Frame) (g : Game) : Game :=
  if g.isPlaying then
    let bg := backgroundStep g.width g.height g.groundLevel g.gameSpeed
      fr.rCloud fr.rCloudY fr.rCloudSize fr.rTree fr.rTreeSize g.clouds g.trees
    let player := Player.update g.groundLevel fr.input fr.dt g.player
    let obs := if spawnCheck g.width fr.rSpawn g.obstacles then
      g.obstacles ++ [Obstacle.spawn g.width g.groundLevel] else g.obstacles
    let res := obstaclesPass player g.gameSpeed obs 0 0
    let collided := decide (0 < res.2)
    { g with
      clouds := bg.1
      trees := bg.2
      player := player
      obstacles := res.1
      isPlaying := !collided
      isGameOver := collided || g.isGameOver
      score := scoreStep g.score
      gameSpeed := speedStep g.gameSpeed }
  else g

/-- Additive jump stage in the style of the first variant (`this.vy -= c`
with the jump constant), for comparison with the assignment style. -/
def applyJumpAdditive (gl : ℚ) (inp : Input) (p : Player) : Player :=
  if inp.jump && p.onGround gl then { p with vy := p.vy - jumpForce } else p

end CatDog

/-! ## Helper lemmas about `Player.update` -/

namespace CatDog

/-- When the jump branch does not fire (no jump key, or airborne),
`Player.update` either lands (snap and zero) or integrates and applies
gravity (plus fast-fall). -/
lemma update_eq_no_jump (gl dt : ℚ) (inp : Input) (p : Player)
    (h : inp.jump = false ∨ ¬ gl - playerHeight ≤ p.y) :
    Player.update gl inp dt p =
      if gl - playerHeight ≤ p.y + p.vy then ⟨gl - playerHeight, 0⟩
      else ⟨p.y + p.vy, p.vy + weight + if inp.fastFall then 2 else 0⟩ := by
  have hj : applyJump gl inp p = p := by
    rcases h with h | h <;> simp [applyJump, Player.onGround, h]
  unfold Player.update
  rw [hj]
  unfold integrate applyGravity applyFastFall Player.onGround
  by_cases hg : gl - playerHeight ≤ p.y + p.vy
  · simp [hg]
  · simp [hg]
    cases hf : inp.fastFall <;> simp [hg]

/-- When the jump branch fires (jump key held while grounded), the velocity
is first replaced by `-jumpForce` and the tick then proceeds as usual. -/
lemma update_eq_jump (gl dt : ℚ) (inp : Input) (p : Player)
    (hj : inp.jump = true) (hg : gl - playerHeight ≤ p.y) :
    Player.update gl inp dt p =
      if gl - playerHeight ≤ p.y - jumpForce then ⟨gl - playerHeight, 0⟩
      else ⟨p.y - jumpForce, -jumpForce + weight + if inp.fastFall then 2 else 0⟩ := by
  have hja : applyJump gl inp p = ⟨p.y, -jumpForce⟩ := by
    simp [applyJump, Player.onGround, hj, hg]
  have hint : integrate ⟨p.y, -jumpForce⟩ = ⟨p.y - jumpForce, -jumpForce⟩ := by
    simp [integrate, sub_eq_add_neg]
  unfold Player.update
  rw [hja, hint]
  by_cases hg2 : gl - playerHeight ≤ p.y - jumpForce
  · rw [if_pos hg2]
    have hgrav : applyGravity gl ⟨p.y - jumpForce, -jumpForce⟩ = ⟨gl - playerHeight, 0⟩ := by
      simp [applyGravity, Player.onGround, hg2]
    rw [hgrav]
    simp [applyFastFall, Player.onGround]
  · rw [if_neg hg2]
    have hgrav : applyGravity gl ⟨p.y - jumpForce, -jumpForce⟩
        = ⟨p.y - jumpForce, -jumpForce + weight⟩ := by
      simp [applyGravity, Player.onGround, hg2]
    rw [hgrav]
    cases hf : inp.fastFall
    · simp [applyFastFall, hf]
    · simp [applyFastFall, Player.onGround, hf, hg2]

/-- Boolean case split used to dispatch the jump guard. -/
lemma jump_or_not (inp : Input) (P : Prop) (hj : ¬ (inp.jump = true ∧ P)) :
    inp.jump = false ∨ ¬ P := by
  cases hb : inp.jump
  · exact Or.inl rfl
  · exact Or.inr fun hp => hj ⟨hb, hp⟩

/-- The ground is a hard floor: after any `Player.update` call the player
sits at or above (`y ≤`) the ground line. -/
lemma update_y_le (gl dt : ℚ) (inp : Input) (p : Player) :
    (Player.update gl inp dt p).y ≤ gl - playerHeight := by
  by_cases hj : inp.jump = true ∧ gl - playerHeight ≤ p.y
  · rw [update_eq_jump gl dt inp p hj.1 hj.2]
    by_cases h : gl - playerHeight ≤ p.y - jumpForce
    · rw [if_pos h]
    · rw [if_neg h]
      show p.y - jumpForce ≤ _
      linarith
  · rw [update_eq_no_jump gl dt inp p (jump_or_not inp _ hj)]
    by_cases h : gl - playerHeight ≤ p.y + p.vy
    · rw [if_pos h]
    · rw [if_neg h]
      show p.y + p.vy ≤ _
      linarith

/-! ## Claim theorems -/

/-- C1, counterexample.  The claim says `Player.update` scales the position
and gravity deltas by the elapsed-time factor.  It does not: at
`dtFactor = 2`, from the airborne state `y = 300, vy = 1` (ground line 500),
the position changes by `vy`, not `vy * 2`, and the velocity changes by
`weight`, not `weight * 2`. -/
theorem claim1_counterexample :
    (Player.update 500 ⟨false, false⟩ 2 ⟨300, 1⟩).y ≠ 300 + 1 * 2 ∧
    (Player.update 500 ⟨false, false⟩ 2 ⟨300, 1⟩).vy ≠ 1 + weight * 2 := by
  rw [update_eq_no_jump 500 2 ⟨false, false⟩ ⟨300, 1⟩ (Or.inl rfl)]
  norm_num [playerHeight, weight]

/-- C1, amended.  `Player.update` ignores its elapsed-time argument
entirely: in an airborne no-jump tick the vertical position changes by
exactly `vy` and the velocity by exactly `weight` (plus the fast-fall
increment), and the result is the same for every `dtFactor` — the physics
is fixed-per-tick, not frame-rate normalized. -/
theorem claim1_amended (gl dt : ℚ) (inp : Input) (p : Player)
    (hj : inp.jump = false) (hair : ¬ gl - playerHeight ≤ p.y + p.vy) :
    (Player.update gl inp dt p).y = p.y + p.vy ∧
    (Player.update gl inp dt p).vy = p.vy + weight + (if inp.fastFall then 2 else 0) ∧
    ∀ dtOther : ℚ, Player.update gl inp dtOther p = Player.update gl inp dt p := by
  rw [update_eq_no_jump gl dt inp p (Or.inl hj), if_neg hair]
  refine ⟨rfl, rfl, fun dtOther => ?_⟩
  rw [update_eq_no_jump gl dtOther inp p (Or.inl hj), if_neg hair]

/-- C1 witness: the amended theorem applied to a concrete airborne tick. -/
theorem claim1_amended_witness :
    (Player.update 500 ⟨false, true⟩ 7 ⟨300, 1⟩).y = 300 + 1 :=
  (claim1_amended 500 7 ⟨false, true⟩ ⟨300, 1⟩ rfl (by norm_num [playerHeight])).1

/-- C8.  A jump fires only when the jump intent is active and the player is
grounded at the instant it is read; it then sets `vy` to exactly
`-jumpForce` whatever the prior velocity (an assignment, not an addition);
while airborne a jump intent is a no-op for the whole tick, and the jump
stage leaves the state untouched. -/
theorem claim8 (gl dt : ℚ) (inp : Input) (p : Player) :
    (inp.jump = true → p.onGround gl = true → (applyJump gl inp p).vy = -jumpForce) ∧
    (p.onGround gl = false →
      ∀ f : Bool, Player.update gl ⟨true, f⟩ dt p = Player.update gl ⟨false, f⟩ dt p) ∧
    (p.onGround gl = false → applyJump gl inp p = p) := by
  refine ⟨fun hj hg => ?_, fun hair f => ?_, fun hair => ?_⟩
  · simp [applyJump, hj, hg]
  · have h : ¬ gl - playerHeight ≤ p.y := by
      simpa [Player.onGround] using hair
    rw [update_eq_no_jump gl dt ⟨true, f⟩ p (Or.inr h),
      update_eq_no_jump gl dt ⟨false, f⟩ p (Or.inr h)]
  · simp [applyJump, hair]

/-- C8 witness: a grounded jump with nonzero prior velocity still lands on
exactly `-jumpForce`. -/
theorem claim8_witness :
    (applyJump 500 ⟨true, false⟩ ⟨460, 5⟩).vy = -jumpForce :=
  (claim8 500 1 ⟨true, false⟩ ⟨460, 5⟩).1 rfl (by norm_num [Player.onGround, playerHeight])

/-- C9.  For any `dtFactor > 0`, an airborne no-jump `Player.update` call
strictly increases `vy` when the player stays airborne; on the call where
the player lands, `vy` becomes exactly 0 and `y` exactly the ground line;
and after any call whatsoever `y` never exceeds `groundLevel - height`. -/
theorem claim9 (gl dt : ℚ) (inp : Input) (p : Player) (hdt : 0 < dt)
    (hj : inp.jump = false) (hair : p.onGround gl = false) :
    ((Player.update gl inp dt p).onGround gl = false →
      p.vy < (Player.update gl inp dt p).vy) ∧
    ((Player.update gl inp dt p).onGround gl = true →
      (Player.update gl inp dt p).vy = 0 ∧
        (Player.update gl inp dt p).y = gl - playerHeight) ∧
    (∀ (q : Player) (inq : Input) (dtq : ℚ),
      (Player.update gl inq dtq q).y ≤ gl - playerHeight) := by
  rw [update_eq_no_jump gl dt inp p (Or.inl hj)]
  refine ⟨?_, ?_, fun q inq dtq => update_y_le gl dtq inq q⟩ <;>
    by_cases h : gl - playerHeight ≤ p.y + p.vy
  · rw [if_pos h]
    intro hcon
    simp [Player.onGround] at hcon
  · rw [if_neg h]
    intro _
    show p.vy < p.vy + weight + _
    have hw : weight = 8 / 10 := rfl
    rw [hw]
    split_ifs <;> linarith
  · rw [if_pos h]
    exact fun _ => ⟨rfl, rfl⟩
  · rw [if_neg h]
    intro hcon
    simp only [Player.onGround] at hcon
    rw [decide_eq_true_eq] at hcon
    exact absurd hcon h

/-- C9 witness: one concrete airborne gravity tick strictly increases
`vy`. -/
theorem claim9_witness :
    (⟨300, 0⟩ : Player).vy < (Player.update 500 ⟨false, false⟩ 1 ⟨300, 0⟩).vy :=
  (claim9 500 1 ⟨false, false⟩ ⟨300, 0⟩ (by norm_num) rfl
    (by norm_num [Player.onGround, playerHeight])).1
    (by rw [update_eq_no_jump 500 1 ⟨false, false⟩ ⟨300, 0⟩ (Or.inl rfl)]
        norm_num [Player.onGround, playerHeight])

/-- C10.  Grounded-implies-zero-velocity is an invariant of `Player.reset`
and of every `Player.update` call, and under it the first variant's
additive jump (`vy -= jumpForce`) agrees with the canonical assignment
(`vy = -jumpForce`). -/
theorem claim10 (gl dt : ℚ) (inp : Input) (p : Player) :
    ((Player.update gl inp dt p).onGround gl = true → (Player.update gl inp dt p).vy = 0) ∧
    ((Player.reset gl).vy = 0 ∧ (Player.reset gl).onGround gl = true) ∧
    (∀ q : Player, q.onGround gl = true → q.vy = 0 →
      applyJumpAdditive gl inp q = applyJump gl inp q) := by
  refine ⟨?_, ⟨rfl, by simp [Player.reset, Player.onGround]⟩, fun q hg hv => ?_⟩
  · by_cases hj : inp.jump = true ∧ gl - playerHeight ≤ p.y
    · rw [update_eq_jump gl dt inp p hj.1 hj.2]
      by_cases h : gl - playerHeight ≤ p.y - jumpForce
      · rw [if_pos h]
        exact fun _ => rfl
      · rw [if_neg h]
        intro hcon
        simp only [Player.onGround, decide_eq_true_eq] at hcon
        exact absurd hcon h
    · rw [update_eq_no_jump gl dt inp p (jump_or_not inp _ hj)]
      by_cases h : gl - playerHeight ≤ p.y + p.vy
      · rw [if_pos h]
        exact fun _ => rfl
      · rw [if_neg h]
        intro hcon
        simp only [Player.onGround, decide_eq_true_eq] at hcon
        exact absurd hcon h
  · unfold applyJumpAdditive applyJump
    split_ifs <;> simp [hv]

/-- C10 witness: a grounded resting tick ends grounded with `vy = 0`. -/
theorem claim10_witness :
    (Player.update 500 ⟨false, false⟩ 1 ⟨460, 0⟩).vy = 0 :=
  (claim10 500 1 ⟨false, false⟩ ⟨460, 0⟩).1
    (by rw [update_eq_no_jump 500 1 ⟨false, false⟩ ⟨460, 0⟩ (Or.inl rfl)]
        norm_num [Player.onGround, playerHeight])

/-- C5.  `checkCollision` is exactly the pure shrink-then-AABB-overlap test
the design describes: the player box inset by 10px per horizontal side and
10px/15px vertically, the obstacle box by 5px/10px, compared with the
standard four-inequality overlap test. -/
theorem claim5 (p : Player) (o : Obstacle) :
    checkCollision p o = rectOverlap (playerHitbox p) (obstacleHitbox o) := rfl

/-- C7, counterexample.  With game speed 6 the claimed minimum spawn gap is
`600 + 6*10 = 660`, yet the code spawns (random draw `r = 1/10`, screen
width 1200) when the last obstacle has travelled only 400. -/
theorem claim7_counterexample :
    spawnCheck 1200 (1 / 10) [⟨800, 460, false⟩] = true ∧
    1200 - (800 : ℚ) < specMinGap startSpeed := by
  constructor
  · norm_num [spawnCheck]
  · norm_num [specMinGap, startSpeed]

/-- C7, amended.  A new obstacle spawns only when the list is empty or the
most recently spawned obstacle sits left of `width - (300 + r*500)` for the
per-frame uniform draw `r ∈ [0,1)` — a threshold independent of game speed
with no short-gap override — so at every spawn the most recent obstacle has
travelled strictly more than 300. -/
theorem claim7_amended (width r : ℚ) (obs : List Obstacle) (o : Obstacle)
    (hr : 0 ≤ r) (hlast : obs.getLast? = some o) :
    (spawnCheck width r obs = true ↔ o.x < width - (300 + r * 500)) ∧
    (spawnCheck width r obs = true → 300 < width - o.x) := by
  unfold spawnCheck
  rw [hlast]
  constructor
  · simp
  · intro h
    rw [decide_eq_true_eq] at h
    have h500 : 0 ≤ r * 500 := mul_nonneg hr (by norm_num)
    linarith

/-- C7 witness: the amended characterization at a concrete frame. -/
theorem claim7_amended_witness :
    spawnCheck 1200 (1 / 10) [⟨800, 460, true⟩] = true ↔
      (⟨800, 460, true⟩ : Obstacle).x < 1200 - (300 + 1 / 10 * 500) :=
  (claim7_amended 1200 (1 / 10) [⟨800, 460, true⟩] ⟨800, 460, true⟩
    (by norm_num) rfl).1

/-- C3, counterexample.  `startGame` does not clear the ambient sequences:
restarting a game state that holds one cloud and one tree leaves both
lists non-empty. -/
theorem claim3_counterexample :
    (Game.startGame (Game.mk 1200 600 500 37 9 false true ⟨300, 2⟩
      [⟨100, 460, false⟩] [⟨600, 100, 40, 2 / 10⟩] [⟨300, 485, 25⟩] 5)).clouds ≠ [] ∧
    (Game.startGame (Game.mk 1200 600 500 37 9 false true ⟨300, 2⟩
      [⟨100, 460, false⟩] [⟨600, 100, 40, 2 / 10⟩] [⟨300, 485, 25⟩] 5)).trees ≠ [] := by
  constructor <;> simp [Game.startGame]

/-- C3, amended.  Every `startGame` call resets score to 0, speed to the
initial constant, empties the obstacle list, resets the player to the
ground with zero velocity, and transitions to Playing — but the ambient
cloud and tree sequences are left exactly as they were, carried over from
the previous run. -/
theorem claim3_amended (g : Game) :
    (Game.startGame g).score = 0 ∧ (Game.startGame g).gameSpeed = startSpeed ∧
    (Game.startGame g).obstacles = [] ∧
    (Game.startGame g).player = Player.reset g.groundLevel ∧
    (Game.startGame g).isPlaying = true ∧ (Game.startGame g).isGameOver = false ∧
    (Game.startGame g).lastTime = 0 ∧
    (Game.startGame g).clouds = g.clouds ∧ (Game.startGame g).trees = g.trees :=
  ⟨rfl, rfl, rfl, rfl, rfl, rfl, rfl, rfl, rfl⟩

/-- Every session speed value has the form `6 + k/1000` with `k ≤ 9000`. -/
lemma speedSeq_form (n : ℕ) :
    ∃ k : ℕ, k ≤ 9000 ∧ speedSeq n = startSpeed + k * speedInc := by
  induction n with
  | zero => exact ⟨0, by norm_num, by norm_num [speedSeq]⟩
  | succ n ih =>
    obtain ⟨k, hk, hval⟩ := ih
    by_cases h : k < 9000
    · refine ⟨k + 1, by omega, ?_⟩
      show speedStep (speedSeq n) = _
      have hlt : speedSeq n < speedCap := by
        rw [hval]
        have hkq : (k : ℚ) < 9000 := by exact_mod_cast h
        norm_num [startSpeed, speedInc, speedCap]
        linarith
      rw [speedStep, if_pos hlt, hval]
      push_cast
      ring
    · have hk9 : k = 9000 := by omega
      refine ⟨9000, le_refl _, ?_⟩
      have hval15 : speedSeq n = 15 := by
        rw [hval, hk9]
        norm_num [startSpeed, speedInc]
      show speedStep (speedSeq n) = _
      rw [speedStep, hval15, if_neg (by norm_num [speedCap])]
      norm_num [startSpeed, speedInc]

/-- C4.  While Playing, each `Game.update` advances the speed by
`speedStep`; along a session started at the initial constant the speed is
monotonically non-decreasing, increments by exactly `speedInc` whenever it
is below the cap, and never exceeds the cap of 15. -/
theorem claim4 :
    (∀ (fr : Frame) (g : Game), g.isPlaying = true →
      (Game.update fr g).gameSpeed = speedStep g.gameSpeed) ∧
    (∀ n : ℕ, speedSeq n ≤ speedSeq (n + 1)) ∧
    (∀ n : ℕ, speedSeq n ≤ speedCap) ∧
    (∀ n : ℕ, speedSeq n < speedCap → speedSeq (n + 1) = speedSeq n + speedInc) := by
  refine ⟨fun fr g hg => ?_, fun n => ?_, fun n => ?_, fun n hlt => ?_⟩
  · simp [Game.update, hg]
  · show speedSeq n ≤ speedStep (speedSeq n)
    rw [speedStep]
    split_ifs
    · norm_num [speedInc]
    · exact le_refl _
  · obtain ⟨k, hk, hval⟩ := speedSeq_form n
    rw [hval]
    have hkq : (k : ℚ) ≤ 9000 := by exact_mod_cast hk
    norm_num [startSpeed, speedInc, speedCap]
    linarith
  · show speedStep (speedSeq n) = _
    rw [speedStep, if_pos hlt]

/-- C4 witness: one concrete playing frame steps the speed by
`speedStep`. -/
theorem claim4_witness :
    (Game.update (Frame.mk ⟨false, false⟩ 1 (1 / 2) (1 / 2) (1 / 2) (1 / 2) (1 / 2) (1 / 2))
      (Game.mk 1200 600 500 0 6 true false ⟨460, 0⟩ [] [] [] 0)).gameSpeed =
    speedStep (6 : ℚ) :=
  claim4.1 (Frame.mk ⟨false, false⟩ 1 (1 / 2) (1 / 2) (1 / 2) (1 / 2) (1 / 2) (1 / 2))
    (Game.mk 1200 600 500 0 6 true false ⟨460, 0⟩ [] [] [] 0) rfl

/-- C2, counterexample.  The pass is not check-each-obstacle-once: with a
retiring obstacle at `x = -35` followed by an obstacle at `x = 85` that
overlaps the grounded player, the splice at index 0 shifts the array so the
second obstacle is neither advanced nor collision-checked, and no
`gameOver` fires this frame even though an obstacle overlaps the player. -/
theorem claim2_counterexample :
    obstaclesPass ⟨460, 0⟩ 6 [⟨-35, 460, false⟩, ⟨85, 460, false⟩] 0 0
      = ([⟨85, 460, false⟩], 0) ∧
    checkCollision ⟨460, 0⟩ (Obstacle.update 6 ⟨85, 460, false⟩) = true := by
  constructor
  · rw [obstaclesPass]
    norm_num [checkCollision, Obstacle.update, playerX, playerWidth, playerHeight,
      obstacleWidth, obstacleHeight]
    rw [obstaclesPass]
    norm_num
  · norm_num [checkCollision, Obstacle.update, playerX, playerWidth, playerHeight,
      obstacleWidth, obstacleHeight]

/-- Setting index `i` and taking `i+1` elements yields the prefix plus the
new element. -/
lemma take_set_succ (l : List Obstacle) (i : ℕ) (a : Obstacle) (h : i < l.length) :
    (l.set i a).take (i + 1) = l.take i ++ [a] := by
  rw [List.set_eq_take_cons_drop a h, List.take_append_eq_append_take]
  simp [List.length_take, Nat.min_eq_left (Nat.le_of_lt h)]

/-- When no visited obstacle gets marked, the pass from position `i`
updates every remaining obstacle in place and counts one `gameOver` per
colliding obstacle. -/
lemma obstaclesPass_no_retire (p : Player) (speed : ℚ) :
    ∀ (m : ℕ) (obs : List Obstacle) (i d : ℕ), obs.length - i ≤ m →
      (∀ o ∈ obs.drop i, (Obstacle.update speed o).marked = false) →
      obstaclesPass p speed obs i d =
        (obs.take i ++ (obs.drop i).map (Obstacle.update speed),
         d + ((obs.drop i).map (Obstacle.update speed)).countP
           (fun o => checkCollision p o)) := by
  intro m
  induction m with
  | zero =>
    intro obs i d hm hnm
    have hi : ¬ i < obs.length := by omega
    rw [obstaclesPass, dif_neg hi]
    rw [List.drop_eq_nil_of_le (by omega), List.take_of_length_le (by omega)]
    simp
  | succ m ih =>
    intro obs i d hm hnm
    by_cases hi : i < obs.length
    · have hdropc : obs.drop i = obs.get ⟨i, hi⟩ :: obs.drop (i + 1) :=
        List.drop_eq_getElem_cons hi
      have homem : obs.get ⟨i, hi⟩ ∈ obs.drop i := by
        rw [hdropc]
        exact List.mem_cons_self _ _
      have hmk : (Obstacle.update speed (obs.get ⟨i, hi⟩)).marked = false :=
        hnm _ homem
      have hmk2 : (Obstacle.update speed obs[i]).marked = false := hmk
      rw [obstaclesPass, dif_pos hi, if_neg (by simp [hmk2])]
      rw [ih (obs.set i (Obstacle.update speed (obs.get ⟨i, hi⟩))) (i + 1)
        _ (by simp [List.length_set]; omega)
        (by intro o ho
            rw [List.drop_set_of_lt _ _ (Nat.lt_succ_self i)] at ho
            exact hnm o (by rw [hdropc]; exact List.mem_cons_of_mem _ ho))]
      rw [List.drop_set_of_lt _ _ (Nat.lt_succ_self i),
        take_set_succ obs i _ hi, hdropc]
      simp only [List.map_cons, List.countP_cons, Nat.succ_eq_add_one]
      rw [Prod.mk.injEq]
      constructor
      · simp [List.append_assoc]
      · split_ifs <;> omega
    · rw [obstaclesPass, dif_neg hi]
      rw [List.drop_eq_nil_of_le (by omega), List.take_of_length_le (by omega)]
      simp

/-- C2, amended.  In a frame in which no obstacle retires, every active
obstacle is advanced and collision-checked exactly once against the current
player state, and `gameOver` (with its death cue) is invoked once per
overlapping obstacle — in particular at least once iff some obstacle
overlaps; when an obstacle retires mid-pass, the obstacle after it is
skipped for that frame (see the counterexample). -/
theorem claim2_amended (p : Player) (speed : ℚ) (obs : List Obstacle)
    (hnm : ∀ o ∈ obs, (Obstacle.update speed o).marked = false) :
    obstaclesPass p speed obs 0 0 =
      (obs.map (Obstacle.update speed),
       (obs.map (Obstacle.update speed)).countP (fun o => checkCollision p o)) ∧
    (0 < (obstaclesPass p speed obs 0 0).2 ↔
      ∃ o ∈ obs, checkCollision p (Obstacle.update speed o) = true) := by
  have hmain := obstaclesPass_no_retire p speed obs.length obs 0 0 (by omega)
    (by simpa using hnm)
  simp only [List.drop_zero, List.take_zero, List.nil_append, Nat.zero_add] at hmain
  refine ⟨hmain, ?_⟩
  rw [hmain]
  simp [List.countP_pos_iff]

/-- C2 witness: the amended theorem at a concrete no-retire frame. -/
theorem claim2_amended_witness :
    obstaclesPass ⟨460, 0⟩ 6 [⟨200, 460, false⟩] 0 0 =
      (([⟨200, 460, false⟩] : List Obstacle).map (Obstacle.update 6),
       (([⟨200, 460, false⟩] : List Obstacle).map (Obstacle.update 6)).countP
         (fun o => checkCollision ⟨460, 0⟩ o)) :=
  (claim2_amended ⟨460, 0⟩ 6 [⟨200, 460, false⟩]
    (by intro o ho
        simp only [List.mem_singleton] at ho
        subst ho
        norm_num [Obstacle.update, obstacleWidth])).1

/-- Closed form of the session score. -/
lemma scoreSeq_eq (n : ℕ) : scoreSeq n = 3 * n / 20 := by
  induction n with
  | zero => norm_num [scoreSeq]
  | succ n ih =>
    show scoreStep (scoreSeq n) = _
    rw [scoreStep, ih, scoreInc]
    push_cast
    ring

/-- The floored score is monotone over frames. -/
lemma flooredScore_mono (a b : ℕ) (h : a ≤ b) : flooredScore a ≤ flooredScore b := by
  apply Int.floor_le_floor
  rw [scoreSeq_eq, scoreSeq_eq]
  have : (a : ℚ) ≤ b := by exact_mod_cast h
  linarith

/-- The floored score grows by at most 1 per frame (the increment 0.15 is
below 1). -/
lemma flooredScore_succ_le (n : ℕ) : flooredScore (n + 1) ≤ flooredScore n + 1 := by
  unfold flooredScore
  have h : scoreSeq (n + 1) ≤ scoreSeq n + 1 := by
    rw [scoreSeq_eq, scoreSeq_eq]
    push_cast
    linarith
  calc ⌊scoreSeq (n + 1)⌋ ≤ ⌊scoreSeq n + 1⌋ := Int.floor_le_floor h
    _ = ⌊scoreSeq n⌋ + 1 := by exact_mod_cast Int.floor_add_int (scoreSeq n) 1

/-- The floored score is never negative. -/
lemma flooredScore_nonneg (n : ℕ) : 0 ≤ flooredScore n := by
  unfold flooredScore
  rw [Int.le_floor, scoreSeq_eq]
  positivity

/-- The session starts at floored score 0. -/
lemma flooredScore_zero : flooredScore 0 = 0 := by
  norm_num [flooredScore, scoreSeq]

/-- The floored score eventually reaches any 100-point threshold. -/
lemma flooredScore_reaches (j : ℕ) : 100 * (j : ℤ) ≤ flooredScore (667 * j) := by
  unfold flooredScore
  rw [Int.le_floor, scoreSeq_eq]
  push_cast
  rw [le_div_iff₀ (by norm_num)]
  nlinarith [Nat.cast_nonneg (α := ℚ) j]

/-- The code's cue condition, restated on the floored scores. -/
lemma cue_iff (n : ℕ) :
    milestoneCue (scoreSeq n) = true ↔
      flooredScore n % 100 ≠ 0 ∧ flooredScore (n + 1) % 100 = 0 := by
  have h : scoreSeq (n + 1) = scoreStep (scoreSeq n) := rfl
  simp [milestoneCue, flooredScore, h]

/-- C6.  Along the Playing frames of a session (score 0, +0.15 per frame,
which is what `Game.update` does while Playing), the milestone cue
condition — floor(previous) mod 100 nonzero and floor(current) mod 100
zero — fires at frame `n` exactly when the floored score crosses a
positive 100-point threshold there, and for every positive threshold
`100*j` there is exactly one frame at which the cue fires crossing it:
never skipped, never repeated. -/
theorem claim6 :
    (∀ (fr : Frame) (g : Game), g.isPlaying = true →
      (Game.update fr g).score = scoreStep g.score) ∧
    (∀ n : ℕ, milestoneCue (scoreSeq n) = true ↔
      ∃ j : ℕ, 0 < j ∧ flooredScore n < 100 * j ∧ 100 * j ≤ flooredScore (n + 1)) ∧
    (∀ j : ℕ, 0 < j → ∃! n : ℕ, milestoneCue (scoreSeq n) = true ∧
      flooredScore (n + 1) = 100 * j) := by
  refine ⟨fun fr g hg => by simp [Game.update, hg], ?_, ?_⟩
  · intro n
    rw [cue_iff]
    have ha := flooredScore_mono n (n + 1) (by omega)
    have hb := flooredScore_succ_le n
    have hc := flooredScore_nonneg n
    constructor
    · rintro ⟨h1, h2⟩
      refine ⟨(flooredScore (n + 1) / 100).toNat, ?_, ?_, ?_⟩ <;> omega
    · rintro ⟨j, hj, hlt, hle⟩
      omega
  · intro j hj
    have hex : ∃ n, 100 * (j : ℤ) ≤ flooredScore n :=
      ⟨667 * j, flooredScore_reaches j⟩
    have hN := Nat.find_spec hex
    have hN0 : Nat.find hex ≠ 0 := by
      intro h0
      rw [h0, flooredScore_zero] at hN
      omega
    have hNpred : ¬ 100 * (j : ℤ) ≤ flooredScore (Nat.find hex - 1) :=
      Nat.find_min hex (by omega)
    have hsucc : Nat.find hex - 1 + 1 = Nat.find hex := by omega
    have hb := flooredScore_succ_le (Nat.find hex - 1)
    rw [hsucc] at hb
    refine ⟨Nat.find hex - 1, ⟨?_, ?_⟩, ?_⟩
    · rw [cue_iff, hsucc]
      omega
    · rw [hsucc]
      omega
    · rintro m ⟨hcm, hm⟩
      rw [cue_iff] at hcm
      obtain ⟨hm1, hm2⟩ := hcm
      by_contra hne
      rcases Nat.lt_or_ge m (Nat.find hex - 1) with hlt | hge
      · have := flooredScore_mono (m + 1) (Nat.find hex - 1) (by omega)
        omega
      · have h1 := flooredScore_mono (Nat.find hex) m (by omega)
        have h2 := flooredScore_mono m (m + 1) (by omega)
        omega

/-- C6 witness: the first 100-point threshold is crossed at exactly one
frame. -/
theorem claim6_witness :
    ∃! n : ℕ, milestoneCue (scoreSeq n) = true ∧ flooredScore (n + 1) = 100 * (1 : ℕ) :=
  claim6.2.2 1 (by norm_num)

end CatDog
